import Mathlib

/-!
Shallow embedding of `src/services/product-api/app.py`, a Flask service
exposing an in-memory product catalog, together with proofs of the spec's
claims about it.

Modelling conventions:
* JSON values are the inductive `Json`; JSON numbers are rationals
  (the JSON-text to JSON-text behaviour of the service is exact decimal,
  so `ℚ` is the faithful observable model).
* Each Flask handler becomes a pure function.  Handlers that read the
  module-level globals `products` / `app_state` take them as arguments;
  the one handler that mutates `products` (`create_product`) also returns
  the new list.  `ServerState`-level wrappers (`healthH`, `createH`, ...)
  make the read/write footprint of every route explicit.
* Nondeterministic inputs (wall-clock time in `/health` and `/metrics`,
  the random value in `/metrics`) are extra parameters.
* Python's `float(x)` / `int(x)` coercions used by `create_product` are
  modelled by `pyFloat?` / `pyInt?`; `none` stands for the raised
  `TypeError`/`ValueError`, which Flask turns into its default 500
  response (modelled by `HttpResult.exn`).  String coercion is modelled
  for the ordinary decimal grammar (optional sign, digits, one dot);
  exotic Python forms (`inf`, `nan`, exponents, underscores) are outside
  the model and none of the claims touches them.
-/

namespace ProductApi

/-- A JSON value.  Numbers are modelled as rationals. -/
inductive Json where
  | null
  | bool (b : Bool)
  | num (q : ℚ)
  | str (s : String)
  | arr (xs : List Json)
  | obj (kvs : List (String × Json))

instance : Inhabited Json := ⟨Json.null⟩

/-- A stored product record (app.py lines 20-26 and 89-94): the `id` is a
natural number, `name` is whatever JSON value the request carried (the code
copies `data['name']` verbatim), `price` is the result of `float(...)`,
`stock` the result of `int(...)`. -/
structure Product where
  id : Nat
  name : Json
  price : ℚ
  stock : Int

/-- Serialisation of a stored record as it appears in responses:
an object with exactly the four fields `id`, `name`, `price`, `stock`. -/
def Product.toJson (p : Product) : Json :=
  .obj [("id", .num p.id), ("name", p.name),
        ("price", .num p.price), ("stock", .num (p.stock : ℚ))]

/-- The seeded in-memory database (app.py lines 20-26). -/
def seedProducts : List Product :=
  [⟨1, .str "Laptop",   999.99,  50⟩,
   ⟨2, .str "Mouse",     29.99, 200⟩,
   ⟨3, .str "Keyboard",  79.99, 150⟩,
   ⟨4, .str "Monitor",  299.99,  75⟩,
   ⟨5, .str "Webcam",    89.99, 100⟩]

/-- The mutable application state (app.py lines 28-31); `startup_time`
only feeds the `/metrics` uptime, which we pass as a parameter, so the
model keeps just the `ready` flag. -/
structure AppState where
  ready : Bool

/-- Outcome of one request: an HTTP response with a status code and a JSON
body, or an uncaught Python exception (which Flask converts to its default
500 response). -/
inductive HttpResult where
  | resp (status : Nat) (body : Json)
  | exn

/-- Status code of a result, `none` when the handler raised. -/
def statusOf : HttpResult → Option Nat
  | .resp s _ => some s
  | .exn => none

/-- Value of digit characters read as a base-10 numeral. -/
def digitsToNat (cs : List Char) : Nat :=
  cs.foldl (fun a c => a * 10 + (c.toNat - 48)) 0

/-- Unsigned decimal grammar accepted by Python's `float`: digits, or
digits around a single dot with at least one digit present. -/
def parseUnsignedFloat (cs : List Char) : Option ℚ :=
  let ip := cs.takeWhile Char.isDigit
  match cs.dropWhile Char.isDigit with
  | [] => if ip.isEmpty then none else some (digitsToNat ip)
  | '.' :: fp =>
      if fp.all Char.isDigit && !(ip.isEmpty && fp.isEmpty) then
        some ((digitsToNat ip : ℚ) + (digitsToNat fp : ℚ) / (10 : ℚ) ^ fp.length)
      else none
  | _ => none

/-- Unsigned decimal grammar accepted by Python's `int`: nonempty digits. -/
def parseUnsignedInt (cs : List Char) : Option Int :=
  if !cs.isEmpty && cs.all Char.isDigit then some (digitsToNat cs) else none

/-- Optional leading sign in front of an unsigned numeric grammar. -/
def parseSigned {α : Type} (core : List Char → Option α) (neg : α → α) :
    List Char → Option α
  | '-' :: cs => (core cs).map neg
  | '+' :: cs => core cs
  | cs => core cs

/-- Python `float(s)` on a string (ordinary decimal forms). -/
def strToFloat? (s : String) : Option ℚ :=
  parseSigned parseUnsignedFloat Neg.neg s.trim.toList

/-- Python `int(s)` on a string (ordinary decimal forms). -/
def strToInt? (s : String) : Option Int :=
  parseSigned parseUnsignedInt Neg.neg s.trim.toList

/-- Python `float(x)` on a JSON value: numbers pass through, booleans give
0/1, numeric strings parse; everything else raises (`none`). -/
def pyFloat? : Json → Option ℚ
  | .num q => some q
  | .bool b => some (if b then 1 else 0)
  | .str s => strToFloat? s
  | _ => none

/-- Python `int(x)` on a JSON value: numbers truncate toward zero (the
behaviour of `int` on Python floats; exact on JSON integers), booleans give
0/1, integer strings parse; everything else raises (`none`). -/
def pyInt? : Json → Option Int
  | .num q => some (Int.tdiv q.num q.den)
  | .bool b => some (if b then 1 else 0)
  | .str s => strToInt? s
  | _ => none

/-- Lookup `data[k]` in a parsed JSON object.  Python's `json` module keeps
the last binding of a duplicated key, hence the `reverse`. -/
def dget (data : List (String × Json)) (k : String) : Option Json :=
  data.reverse.lookup k

/-- The `required` list of `create_product` (app.py line 85). -/
def requiredFields : List String := ["name", "price", "stock"]

/-- Handler `health` (app.py lines 34-41); `timestamp` stands for
`datetime.now().isoformat()`. -/
def health (timestamp : String) : HttpResult :=
  .resp 200 (.obj [("status", .str "healthy"), ("service", .str "product-api"),
                   ("timestamp", .str timestamp)])

/-- Handler `ready` (app.py lines 44-53). -/
def ready (r : Bool) : HttpResult :=
  if !r then
    .resp 503 (.obj [("status", .str "not ready")])
  else
    .resp 200 (.obj [("status", .str "ready"), ("service", .str "product-api")])

/-- Handler `get_products` (app.py lines 56-66).  The random
`time.sleep` has no observable effect on the response and is dropped. -/
def get_products (ps : List Product) : HttpResult :=
  .resp 200 (.obj [("success", .bool true), ("count", .num ps.length),
                   ("products", .arr (ps.map Product.toJson))])

/-- Handler `get_product` (app.py lines 69-77): linear scan by id via
`next((p for p in products if p['id'] == product_id), None)`. -/
def get_product (ps : List Product) (product_id : Nat) : HttpResult :=
  match ps.find? (fun p => p.id == product_id) with
  | some p => .resp 200 (.obj [("success", .bool true), ("product", p.toJson)])
  | none => .resp 404 (.obj [("success", .bool false),
                             ("error", .str "Product not found")])

/-- The new id assigned by `create_product` (app.py line 90):
`max([p['id'] for p in products]) + 1 if products else 1`. -/
def nextId (ps : List Product) : Nat :=
  if ps.isEmpty then 1 else (ps.map Product.id).foldr Nat.max 0 + 1

/-- Handler `create_product` (app.py lines 80-99) on a request body parsed
as a JSON object: presence check of the required fields, then coercions
(a failing coercion raises, nothing is appended), then append and 201. -/
def create_product (ps : List Product) (data : List (String × Json)) :
    HttpResult × List Product :=
  if !(requiredFields.all fun field => (dget data field).isSome) then
    (.resp 400 (.obj [("success", .bool false),
                      ("error", .str "Missing required fields")]), ps)
  else
    let nameV := (dget data "name").getD .null
    let priceV := (dget data "price").getD .null
    let stockV := (dget data "stock").getD .null
    match pyFloat? priceV, pyInt? stockV with
    | some pr, some st =>
        let new_product : Product := ⟨nextId ps, nameV, pr, st⟩
        (.resp 201 (.obj [("success", .bool true),
                          ("product", new_product.toJson)]),
         ps ++ [new_product])
    | _, _ => (.exn, ps)

/-- Handler `metrics` (app.py lines 102-118); `randVal` stands for
`random.randint(100, 1000)` and `uptime` for the elapsed seconds.  The body
is plain text, not JSON. -/
def metrics (ps : List Product) (randVal : Nat) (uptime : ℚ) : String × Nat :=
  ("# HELP http_requests_total Total HTTP requests\n"
    ++ "# TYPE http_requests_total counter\n"
    ++ "http_requests_total\x7Bservice=\"product-api\",method=\"GET\"\x7D "
    ++ toString randVal ++ "\n\n"
    ++ "# HELP products_total Total number of products\n"
    ++ "# TYPE products_total gauge\n"
    ++ "products_total " ++ toString ps.length ++ "\n\n"
    ++ "# HELP app_uptime_seconds Application uptime\n"
    ++ "# TYPE app_uptime_seconds gauge\n"
    ++ "app_uptime_seconds " ++ toString uptime ++ "\n", 200)

/-- Handler `index` (app.py lines 121-132). -/
def index : HttpResult :=
  .resp 200 (.obj
    [("service", .str "Product API"), ("version", .str "1.0.0"),
     ("endpoints", .obj
       [("health", .str "/health"), ("ready", .str "/ready"),
        ("products", .str "/api/products"), ("metrics", .str "/metrics")])])

/-- The whole mutable state of the process: the `products` global and
`app_state`. -/
structure ServerState where
  products : List Product
  appState : AppState

/-- Route `GET /health` as a state transformer. -/
def healthH (timestamp : String) (s : ServerState) : HttpResult × ServerState :=
  (health timestamp, s)

/-- Route `GET /ready` as a state transformer. -/
def readyH (s : ServerState) : HttpResult × ServerState :=
  (ready s.appState.ready, s)

/-- Route `GET /api/products` as a state transformer. -/
def getProductsH (s : ServerState) : HttpResult × ServerState :=
  (get_products s.products, s)

/-- Route `GET /api/products/{id}` as a state transformer. -/
def getProductH (product_id : Nat) (s : ServerState) : HttpResult × ServerState :=
  (get_product s.products product_id, s)

/-- Route `GET /metrics` as a state transformer. -/
def metricsH (randVal : Nat) (uptime : ℚ) (s : ServerState) :
    (String × Nat) × ServerState :=
  (metrics s.products randVal uptime, s)

/-- Route `GET /` as a state transformer. -/
def indexH (s : ServerState) : HttpResult × ServerState :=
  (index, s)

/-- Route `POST /api/products` as a state transformer: the only route that
writes to the state, and it only replaces the `products` list. -/
def createH (data : List (String × Json)) (s : ServerState) :
    HttpResult × ServerState :=
  let r := create_product s.products data
  (r.1, { s with products := r.2 })

/-- The initial state of the process. -/
def initialState : ServerState := ⟨seedProducts, ⟨true⟩⟩

/-- Repeated `POST /api/products` calls: the list of responses and the
final collection. -/
def runCreates (ps : List Product) :
    List (List (String × Json)) → List HttpResult × List Product
  | [] => ([], ps)
  | d :: ds =>
      let r := create_product ps d
      let rest := runCreates r.2 ds
      (r.1 :: rest.1, rest.2)

/-- The `count` field of a JSON-object response body, when present. -/
def respCount (r : HttpResult) : Option ℚ :=
  match r with
  | .resp _ (.obj kvs) =>
      match kvs.lookup "count" with
      | some (.num c) => some c
      | _ => none
  | _ => none

def penBody : List (String × Json) :=
  [("name", .str "Pen"), ("price", .num 1.99), ("stock", .num 500)]

def penProduct : Product := ⟨6, .str "Pen", 1.99, 500⟩

/-- The concrete body refuting C8 as stated: all three fields present but
`price` is JSON null, which Python's `float` cannot coerce. -/
def uncoercibleBody : List (String × Json) :=
  [("name", .str "Pen"), ("price", .null), ("stock", .num 1)]

/-- States reachable from process start by any sequence of handler
executions. -/
inductive Reachable : ServerState → Prop where
  | seed : Reachable initialState
  | healthStep (timestamp : String) {s : ServerState} :
      Reachable s → Reachable (healthH timestamp s).2
  | readyStep {s : ServerState} : Reachable s → Reachable (readyH s).2
  | productsStep {s : ServerState} : Reachable s → Reachable (getProductsH s).2
  | productStep (product_id : Nat) {s : ServerState} :
      Reachable s → Reachable (getProductH product_id s).2
  | metricsStep (randVal : Nat) (uptime : ℚ) {s : ServerState} :
      Reachable s → Reachable (metricsH randVal uptime s).2
  | indexStep {s : ServerState} : Reachable s → Reachable (indexH s).2
  | createStep (data : List (String × Json)) {s : ServerState} :
      Reachable s → Reachable (createH data s).2

lemma le_foldr_max {l : List Nat} {x : Nat} (hx : x ∈ l) : x ≤ l.foldr Nat.max 0 := by
  induction l with
  | nil => cases hx
  | cons a t ih =>
      rcases List.mem_cons.mp hx with h | h
      · subst h; exact Nat.le_max_left _ _
      · exact le_trans (ih h) (Nat.le_max_right _ _)

lemma foldr_max_mem : ∀ l : List Nat, l ≠ [] → l.foldr Nat.max 0 ∈ l
  | [], h => absurd rfl h
  | [a], _ => by simp
  | a :: b :: t, _ => by
      have ih := foldr_max_mem (b :: t) (by simp)
      show Nat.max a ((b :: t).foldr Nat.max 0) ∈ a :: b :: t
      by_cases h : a ≤ (b :: t).foldr Nat.max 0
      · have he : a.max ((b :: t).foldr Nat.max 0) = (b :: t).foldr Nat.max 0 :=
          Nat.max_eq_right h
        rw [he]; exact List.mem_cons_of_mem _ ih
      · have he : a.max ((b :: t).foldr Nat.max 0) = a :=
          Nat.max_eq_left (Nat.le_of_not_le h)
        rw [he]; exact List.mem_cons_self _ _

lemma id_lt_nextId {ps : List Product} {q : Product} (hq : q ∈ ps) :
    q.id < nextId ps := by
  have hne : ¬ ps.isEmpty := by
    cases ps with
    | nil => cases hq
    | cons a t => simp [List.isEmpty]
  have : q.id ∈ ps.map Product.id := List.mem_map_of_mem _ hq
  have hle := le_foldr_max this
  simp [nextId, hne]
  omega

lemma create_201_cases {ps : List Product} {data : List (String × Json)}
    {body : Json} {ps' : List Product}
    (h : create_product ps data = (.resp 201 body, ps')) :
    ∃ pr st, ps' = ps ++ [⟨nextId ps, (dget data "name").getD .null, pr, st⟩] := by
  unfold create_product at h
  split at h
  · simp at h
  · dsimp only at h
    split at h
    · rename_i pr st hpr hst
      refine ⟨pr, st, ?_⟩
      have := congrArg Prod.snd h
      simpa using this.symm
    · simp at h

/-- C1: a successful `POST /api/products` assigns the new product the id
`max existing id + 1` (1 when the collection is empty) and appends the new
record at the end of the collection. -/
theorem create_assigns_max_plus_one (ps : List Product)
    (data : List (String × Json)) (body : Json) (ps' : List Product)
    (h : create_product ps data = (.resp 201 body, ps')) :
    ∃ p : Product, ps' = ps ++ [p] ∧
      (ps = [] → p.id = 1) ∧
      (ps ≠ [] → ∃ m, (∃ q ∈ ps, q.id = m) ∧ (∀ q ∈ ps, q.id ≤ m) ∧ p.id = m + 1) := by
  obtain ⟨pr, st, hps⟩ := create_201_cases h
  refine ⟨_, hps, ?_, ?_⟩
  · intro he; subst he; rfl
  · intro hne
    refine ⟨(ps.map Product.id).foldr Nat.max 0, ?_, ?_, ?_⟩
    · have : (ps.map Product.id).foldr Nat.max 0 ∈ ps.map Product.id :=
        foldr_max_mem _ (by simpa using hne)
      obtain ⟨q, hq, hqe⟩ := List.mem_map.mp this
      exact ⟨q, hq, hqe⟩
    · intro q hq
      exact le_foldr_max (List.mem_map_of_mem _ hq)
    · show nextId ps = _ + 1
      have : ¬ ps.isEmpty := by simpa [List.isEmpty_iff] using hne
      simp [nextId, this]

/-- Witness for C1 at the seeded state and the "Pen" body. -/
theorem create_assigns_max_plus_one_witness :
    ∃ p : Product, seedProducts ++ [penProduct] = seedProducts ++ [p] ∧
      (seedProducts = [] → p.id = 1) ∧
      (seedProducts ≠ [] →
        ∃ m, (∃ q ∈ seedProducts, q.id = m) ∧ (∀ q ∈ seedProducts, q.id ≤ m) ∧
          p.id = m + 1) :=
  create_assigns_max_plus_one seedProducts penBody
    (.obj [("success", .bool true), ("product", penProduct.toJson)])
    (seedProducts ++ [penProduct]) rfl

/-- C3: a create request missing one of the required fields gets a 400
response with error "Missing required fields" and leaves the collection
unchanged. -/
theorem create_missing_field (ps : List Product) (data : List (String × Json))
    (h : dget data "name" = none ∨ dget data "price" = none ∨
         dget data "stock" = none) :
    create_product ps data =
      (.resp 400 (.obj [("success", .bool false),
                        ("error", .str "Missing required fields")]), ps) := by
  unfold create_product
  have hc : (requiredFields.all fun field => (dget data field).isSome) = false := by
    simp only [requiredFields, List.all_cons, List.all_nil, Bool.and_true]
    rcases h with h | h | h <;> simp [h]
  simp [hc]

/-- Witness for C3: a body carrying only `name`. -/
theorem create_missing_field_witness :
    create_product seedProducts [("name", Json.str "Pen")] =
      (.resp 400 (.obj [("success", .bool false),
                        ("error", .str "Missing required fields")]),
       seedProducts) :=
  create_missing_field seedProducts [("name", Json.str "Pen")]
    (Or.inr (Or.inl rfl))

/-- C7: `GET /ready` answers 200 with the ready body when
`app_state.ready` is true, and 503 with the not-ready body when it is
false, whatever the product collection holds. -/
theorem ready_contract (ps : List Product) :
    (readyH ⟨ps, ⟨true⟩⟩).1 =
      .resp 200 (.obj [("status", .str "ready"),
                       ("service", .str "product-api")]) ∧
    (readyH ⟨ps, ⟨false⟩⟩).1 =
      .resp 503 (.obj [("status", .str "not ready")]) :=
  ⟨rfl, rfl⟩

lemma create_product_snd (ps : List Product) (data : List (String × Json)) :
    (create_product ps data).2 = ps ∨
    ∃ p : Product, (create_product ps data).2 = ps ++ [p] := by
  unfold create_product
  split
  · exact Or.inl rfl
  · dsimp only
    split
    · exact Or.inr ⟨_, rfl⟩
    · exact Or.inl rfl

/-- C9: every GET route leaves the whole server state unchanged, and the
create route keeps `app_state` and all previously stored records intact,
at most appending a single record. -/
theorem handlers_frame (s : ServerState) (timestamp : String) (randVal : Nat)
    (uptime : ℚ) (product_id : Nat) (data : List (String × Json)) :
    (healthH timestamp s).2 = s ∧ (readyH s).2 = s ∧ (getProductsH s).2 = s ∧
    (getProductH product_id s).2 = s ∧ (metricsH randVal uptime s).2 = s ∧
    (indexH s).2 = s ∧
    (createH data s).2.appState = s.appState ∧
    ((createH data s).2.products = s.products ∨
      ∃ p : Product, (createH data s).2.products = s.products ++ [p]) := by
  refine ⟨rfl, rfl, rfl, rfl, rfl, rfl, rfl, ?_⟩
  exact create_product_snd s.products data

/-- C8 counterexample: on a body whose `price` is not coercible the
handler does not answer 400; it raises (framework-default 500). -/
theorem create_uncoercible_counterexample :
    (dget uncoercibleBody "name").isSome = true ∧
    (dget uncoercibleBody "price").isSome = true ∧
    (dget uncoercibleBody "stock").isSome = true ∧
    pyFloat? ((dget uncoercibleBody "price").getD .null) = none ∧
    (create_product seedProducts uncoercibleBody).1 = HttpResult.exn ∧
    statusOf (create_product seedProducts uncoercibleBody).1 ≠ some 400 :=
  ⟨rfl, rfl, rfl, rfl, rfl, by decide⟩

/-- C8 amended: a create body with all three fields present whose `price`
is not coercible to float or whose `stock` is not coercible to int makes
the handler raise an uncaught exception (Flask's default 500), leaving the
collection unchanged — not a 400. -/
theorem create_uncoercible_raises (ps : List Product)
    (data : List (String × Json))
    (hname : (dget data "name").isSome = true)
    (hprice : (dget data "price").isSome = true)
    (hstock : (dget data "stock").isSome = true)
    (hbad : pyFloat? ((dget data "price").getD .null) = none ∨
            pyInt? ((dget data "stock").getD .null) = none) :
    create_product ps data = (HttpResult.exn, ps) := by
  unfold create_product
  have hc : (requiredFields.all fun field => (dget data field).isSome) = true := by
    simp [requiredFields, hname, hprice, hstock]
  simp only [hc, Bool.not_true, Bool.false_eq_true, if_false]
  rcases hbad with h | h
  · rw [h]
  · cases hf : pyFloat? ((dget data "price").getD .null) <;> rw [h]

/-- Witness for C8's amended theorem at the uncoercible body. -/
theorem create_uncoercible_raises_witness :
    create_product seedProducts uncoercibleBody =
      (HttpResult.exn, seedProducts) :=
  create_uncoercible_raises seedProducts uncoercibleBody rfl rfl rfl
    (Or.inl rfl)

/-- C6: from the seeded state (5 products, ids 1-5) the "Pen" create
returns 201 with product `{id:6, name:"Pen", price:1.99, stock:500}` and
the subsequent products listing reports count 6. -/
theorem concrete_pen_scenario :
    seedProducts.map Product.id = [1, 2, 3, 4, 5] ∧
    create_product seedProducts penBody =
      (.resp 201 (.obj [("success", .bool true),
         ("product", .obj [("id", .num 6), ("name", .str "Pen"),
                           ("price", .num 1.99), ("stock", .num 500)])]),
       seedProducts ++ [penProduct]) ∧
    respCount (get_products (create_product seedProducts penBody).2) = some 6 :=
  ⟨rfl, rfl, rfl⟩

lemma Product.toJson_inj {p q : Product} (h : p.toJson = q.toJson) : p = q := by
  cases p with
  | mk pid pname pprice pstock =>
      cases q with
      | mk qid qname qprice qstock =>
          simp only [Product.toJson, Json.obj.injEq, List.cons.injEq,
            Prod.mk.injEq, Json.num.injEq, Nat.cast_inj, Int.cast_inj,
            true_and, and_true] at h
          obtain ⟨hid, hname, hprice, hstock⟩ := h
          simp [hid, hname, hprice, hstock]

lemma find_eq_of_mem_of_nodup {ps : List Product} {p : Product} {pid : Nat}
    (hnd : (ps.map Product.id).Nodup) (hmem : p ∈ ps) (hid : p.id = pid) :
    ps.find? (fun q => q.id == pid) = some p := by
  induction ps with
  | nil => cases hmem
  | cons a t ih =>
      rw [List.map_cons, List.nodup_cons] at hnd
      rcases List.mem_cons.mp hmem with rfl | hmem'
      · exact List.find?_cons_of_pos _ (by simp [hid])
      · by_cases ha : a.id = pid
        · exact absurd (ha.trans hid.symm ▸ List.mem_map_of_mem Product.id hmem')
            (by simpa [ha, hid] using hnd.1)
        · rw [List.find?_cons_of_neg _ (by simp [ha])]
          exact ih hnd.2 hmem'

lemma find_unique {ps : List Product} {pid : Nat} {p : Product}
    (hnd : (ps.map Product.id).Nodup)
    (hf : ps.find? (fun q => q.id == pid) = some p) :
    p.id = pid ∧ ∀ q ∈ ps, q.id = pid → q = p := by
  have hmem : p ∈ ps := List.mem_of_find?_eq_some hf
  have hpid : p.id = pid := by simpa using List.find?_some hf
  refine ⟨hpid, fun q hq hqid => ?_⟩
  exact List.inj_on_of_nodup_map hnd hq hmem (hqid.trans hpid.symm)

/-- C2: `GET /api/products/{id}` answers 200 with exactly the stored
record of that id precisely when such a record exists, and the 404
"Product not found" body precisely when none does. -/
theorem get_product_contract (ps : List Product) (product_id : Nat)
    (hnd : (ps.map Product.id).Nodup) :
    (∀ p : Product,
      get_product ps product_id =
        .resp 200 (.obj [("success", .bool true), ("product", p.toJson)]) ↔
      (p ∈ ps ∧ p.id = product_id)) ∧
    (get_product ps product_id =
      .resp 404 (.obj [("success", .bool false),
                       ("error", .str "Product not found")]) ↔
      ∀ p ∈ ps, p.id ≠ product_id) := by
  refine ⟨fun p => ⟨?_, ?_⟩, ⟨?_, ?_⟩⟩
  · intro h
    unfold get_product at h
    cases hf : ps.find? (fun q => q.id == product_id) with
    | none => rw [hf] at h; simp at h
    | some q =>
        rw [hf] at h
        have hqp : q = p := Product.toJson_inj (by simpa using h)
        subst hqp
        exact ⟨List.mem_of_find?_eq_some hf, by simpa using List.find?_some hf⟩
  · rintro ⟨hmem, hid⟩
    unfold get_product
    rw [find_eq_of_mem_of_nodup hnd hmem hid]
  · intro h q hq hqid
    unfold get_product at h
    cases hf : ps.find? (fun r => r.id == product_id) with
    | some r => rw [hf] at h; simp at h
    | none =>
        have hne := List.find?_eq_none.mp hf q hq
        simp [hqid] at hne
  · intro hall
    unfold get_product
    cases hf : ps.find? (fun r => r.id == product_id) with
    | some r =>
        exact absurd (by simpa using List.find?_some hf)
          (hall r (List.mem_of_find?_eq_some hf))
    | none => rfl

/-- Witness for C2 at the seeded state and id 99 (the spec's concrete 404
scenario follows from the second conjunct). -/
theorem get_product_contract_witness :
    (seedProducts.map Product.id).Nodup ∧
    ((∀ p : Product,
      get_product seedProducts 99 =
        .resp 200 (.obj [("success", .bool true), ("product", p.toJson)]) ↔
      (p ∈ seedProducts ∧ p.id = 99)) ∧
    (get_product seedProducts 99 =
      .resp 404 (.obj [("success", .bool false),
                       ("error", .str "Product not found")]) ↔
      ∀ p ∈ seedProducts, p.id ≠ 99)) :=
  ⟨by decide, get_product_contract seedProducts 99 (by decide)⟩

lemma create_product_snd_fresh (ps : List Product) (data : List (String × Json)) :
    (create_product ps data).2 = ps ∨
    ∃ p : Product, p.id = nextId ps ∧ (create_product ps data).2 = ps ++ [p] := by
  unfold create_product
  split
  · exact Or.inl rfl
  · dsimp only
    split
    · exact Or.inr ⟨_, rfl, rfl⟩
    · exact Or.inl rfl

lemma create_preserves_nodup {ps : List Product} (data : List (String × Json))
    (hnd : (ps.map Product.id).Nodup) :
    ((create_product ps data).2.map Product.id).Nodup := by
  rcases create_product_snd_fresh ps data with h | ⟨p, hid, h⟩
  · rw [h]; exact hnd
  · rw [h, List.map_append, List.nodup_append]
    refine ⟨hnd, by simp, ?_⟩
    intro a ha hb
    simp only [List.map_cons, List.map_nil, List.mem_singleton] at hb
    obtain ⟨q, hq, hqe⟩ := List.mem_map.mp ha
    have hlt := id_lt_nextId hq
    rw [hqe, hb, hid] at hlt
    exact lt_irrefl _ hlt

/-- C5: in every reachable state (the seeded one and anything a sequence
of handler executions can produce) the stored ids are pairwise distinct,
so the record the lookup scan returns is the only exact match. -/
theorem ids_unique_invariant (s : ServerState) (h : Reachable s) :
    (s.products.map Product.id).Nodup ∧
    ∀ (product_id : Nat) (p : Product),
      s.products.find? (fun q => q.id == product_id) = some p →
      p.id = product_id ∧ ∀ q ∈ s.products, q.id = product_id → q = p := by
  have hnd : (s.products.map Product.id).Nodup := by
    induction h with
    | seed => decide
    | healthStep timestamp hr ih => exact ih
    | readyStep hr ih => exact ih
    | productsStep hr ih => exact ih
    | productStep product_id hr ih => exact ih
    | metricsStep randVal uptime hr ih => exact ih
    | indexStep hr ih => exact ih
    | createStep data hr ih => exact create_preserves_nodup data ih
  exact ⟨hnd, fun pid p hf => find_unique hnd hf⟩

/-- Witness for C5 at the initial state. -/
theorem ids_unique_invariant_witness :
    (initialState.products.map Product.id).Nodup ∧
    ∀ (product_id : Nat) (p : Product),
      initialState.products.find? (fun q => q.id == product_id) = some p →
      p.id = product_id ∧ ∀ q ∈ initialState.products, q.id = product_id → q = p :=
  ids_unique_invariant initialState Reachable.seed

/-- C10: an accepted create stores and returns a record carrying exactly
the four fields id, name, price, stock — name copied verbatim, price the
float coercion of the body's price, stock the int coercion of the body's
stock — and any further fields of the body are ignored. -/
theorem create_fields_exact (ps : List Product) (data : List (String × Json))
    (pr : ℚ) (st : Int)
    (hname : (dget data "name").isSome = true)
    (hpr : pyFloat? ((dget data "price").getD .null) = some pr)
    (hst : pyInt? ((dget data "stock").getD .null) = some st) :
    ∃ p : Product,
      create_product ps data =
        (.resp 201 (.obj [("success", .bool true), ("product", p.toJson)]),
         ps ++ [p]) ∧
      p.toJson = .obj [("id", .num p.id),
                       ("name", (dget data "name").getD .null),
                       ("price", .num pr), ("stock", .num (st : ℚ))] ∧
      p.name = (dget data "name").getD .null ∧ p.price = pr ∧ p.stock = st ∧
      ∀ data' : List (String × Json),
        (∀ k ∈ requiredFields, dget data' k = dget data k) →
        create_product ps data' = create_product ps data := by
  have hprice : (dget data "price").isSome = true := by
    cases hd : dget data "price" with
    | none => rw [hd] at hpr; simp [pyFloat?] at hpr
    | some v => rfl
  have hstock : (dget data "stock").isSome = true := by
    cases hd : dget data "stock" with
    | none => rw [hd] at hst; simp [pyInt?] at hst
    | some v => rfl
  have hc : (requiredFields.all fun field => (dget data field).isSome) = true := by
    simp [requiredFields, hname, hprice, hstock]
  refine ⟨⟨nextId ps, (dget data "name").getD .null, pr, st⟩, ?_, rfl, rfl, rfl, rfl, ?_⟩
  · unfold create_product
    simp only [hc, Bool.not_true, Bool.false_eq_true, if_false]
    rw [hpr, hst]
  · intro data' hagree
    have h1 : dget data' "name" = dget data "name" :=
      hagree _ (by simp [requiredFields])
    have h2 : dget data' "price" = dget data "price" :=
      hagree _ (by simp [requiredFields])
    have h3 : dget data' "stock" = dget data "stock" :=
      hagree _ (by simp [requiredFields])
    simp only [create_product, requiredFields, List.all_cons, List.all_nil,
      Bool.and_true]
    rw [h1, h2, h3]

/-- Witness for C10 at the "Pen" body. -/
theorem create_fields_exact_witness :
    (dget penBody "name").isSome = true ∧
    pyFloat? ((dget penBody "price").getD .null) = some 1.99 ∧
    pyInt? ((dget penBody "stock").getD .null) = some 500 ∧
    ∃ p : Product,
      create_product seedProducts penBody =
        (.resp 201 (.obj [("success", .bool true), ("product", p.toJson)]),
         seedProducts ++ [p]) ∧
      p.toJson = .obj [("id", .num p.id),
                       ("name", (dget penBody "name").getD .null),
                       ("price", .num (1.99 : ℚ)),
                       ("stock", .num ((500 : Int) : ℚ))] ∧
      p.name = (dget penBody "name").getD .null ∧ p.price = 1.99 ∧
      p.stock = 500 ∧
      ∀ data' : List (String × Json),
        (∀ k ∈ requiredFields, dget data' k = dget penBody k) →
        create_product seedProducts data' = create_product seedProducts penBody :=
  ⟨rfl, rfl, rfl, create_fields_exact seedProducts penBody 1.99 500 rfl rfl rfl⟩

lemma runCreates_cons (ps : List Product) (d : List (String × Json))
    (ds : List (List (String × Json))) :
    runCreates ps (d :: ds) =
      ((create_product ps d).1 :: (runCreates (create_product ps d).2 ds).1,
       (runCreates (create_product ps d).2 ds).2) := rfl

lemma runCreates_all_201 :
    ∀ (bodies : List (List (String × Json))) (ps : List Product),
    (∀ r ∈ (runCreates ps bodies).1, ∃ b, r = HttpResult.resp 201 b) →
    ∃ news : List Product, (runCreates ps bodies).2 = ps ++ news ∧
      news.length = bodies.length ∧
      ∀ i : Fin news.length, ∀ q ∈ ps ++ news.take i.val,
        q.id < (news.get i).id := by
  intro bodies
  induction bodies with
  | nil =>
      intro ps h
      refine ⟨[], by simp [runCreates], rfl, ?_⟩
      intro i
      exact absurd i.isLt (by simp)
  | cons d ds ih =>
      intro ps h
      rw [runCreates_cons] at h ⊢
      obtain ⟨b, hb⟩ := h (create_product ps d).1 (List.mem_cons_self _ _)
      have hfull : create_product ps d =
          (HttpResult.resp 201 b, (create_product ps d).2) := by rw [← hb]
      obtain ⟨pr, st, hsnd⟩ := create_201_cases hfull
      have htail : ∀ r ∈ (runCreates (create_product ps d).2 ds).1,
          ∃ b, r = HttpResult.resp 201 b :=
        fun r hr => h r (List.mem_cons_of_mem _ hr)
      obtain ⟨news₁, heq, hlen, hfresh⟩ := ih (create_product ps d).2 htail
      rw [hsnd] at hfresh
      refine ⟨⟨nextId ps, (dget d "name").getD .null, pr, st⟩ :: news₁, ?_, by simp [hlen], ?_⟩
      · show (runCreates (create_product ps d).2 ds).2 = _
        rw [heq, hsnd, List.append_assoc]
        rfl
      · intro i
        cases i using Fin.cases with
        | zero =>
            intro q hq
            simp only [Fin.val_zero, List.take_zero, List.append_nil] at hq
            simpa using id_lt_nextId hq
        | succ j =>
            intro q hq
            have hq' : q ∈ (ps ++ [⟨nextId ps, (dget d "name").getD .null, pr, st⟩]) ++
                news₁.take j.val := by
              rw [List.append_assoc]
              simpa using hq
            simpa using hfresh j q hq'

/-- C4: after `N` successful creates the products listing count grows by
exactly `N`, and each newly created record's id is strictly greater than
every id present just before its create. -/
theorem creates_count_and_fresh (ps : List Product)
    (bodies : List (List (String × Json)))
    (h : ∀ r ∈ (runCreates ps bodies).1, ∃ b, r = HttpResult.resp 201 b) :
    respCount (get_products ps) = some ((ps.length : ℚ)) ∧
    respCount (get_products (runCreates ps bodies).2) =
      some ((ps.length : ℚ) + (bodies.length : ℚ)) ∧
    ∃ news : List Product, (runCreates ps bodies).2 = ps ++ news ∧
      news.length = bodies.length ∧
      ∀ i : Fin news.length, ∀ q ∈ ps ++ news.take i.val,
        q.id < (news.get i).id := by
  obtain ⟨news, heq, hlen, hfresh⟩ := runCreates_all_201 bodies ps h
  refine ⟨rfl, ?_, news, heq, hlen, hfresh⟩
  have hrc : respCount (get_products (runCreates ps bodies).2) =
      some (((runCreates ps bodies).2.length : ℚ)) := rfl
  rw [hrc, heq, List.length_append, hlen]
  norm_cast

/-- Witness for C4: one successful create from the seeded state. -/
theorem creates_count_and_fresh_witness :
    respCount (get_products seedProducts) = some ((seedProducts.length : ℚ)) ∧
    respCount (get_products (runCreates seedProducts [penBody]).2) =
      some ((seedProducts.length : ℚ) + (([penBody].length : ℕ) : ℚ)) ∧
    ∃ news : List Product,
      (runCreates seedProducts [penBody]).2 = seedProducts ++ news ∧
      news.length = [penBody].length ∧
      ∀ i : Fin news.length, ∀ q ∈ seedProducts ++ news.take i.val,
        q.id < (news.get i).id :=
  creates_count_and_fresh seedProducts [penBody] (by
    intro r hr
    have hr1 : r = (create_product seedProducts penBody).1 := by
      simpa [runCreates] using hr
    exact ⟨.obj [("success", .bool true), ("product", penProduct.toJson)],
      by rw [hr1]; rfl⟩)

end ProductApi
